import Mathlib

/-
  Shallow embedding of the group-lending ledger implemented in
  src/src/components/LendingApp.tsx.  JavaScript numbers are embedded as
  Rat (the arithmetic the code performs is +, -, *, min and comparisons,
  all exact on the values that occur), Date values as Int milliseconds,
  and entity ids (Date.now().toString() in the source) as Nat parameters
  supplied by the caller.  Operations that can `throw` are embedded as
  Except; code paths that silently `return` without updating state are
  embedded as `Except.ok` of the unchanged state.
-/

namespace Lending

inductive Role where
  | lender
  | borrower
  deriving DecidableEq

inductive LoanStatus where
  | pending
  | approved
  | rejected
  deriving DecidableEq

inductive Schedule where
  | weekly
  | monthly
  deriving DecidableEq

inductive Method where
  | cash
  | bank
  | card
  | mobile
  deriving DecidableEq

/-- User record (src/src/types/lending via LendingApp.tsx usage). -/
structure User where
  id : Nat
  name : String
  role : Role
  joinedAt : Int
  deriving DecidableEq

/-- Capital entry: signed amount, positive = deposit, negative = withdrawal. -/
structure Capital where
  id : Nat
  lenderId : Nat
  amount : Rat
  addedAt : Int
  deriving DecidableEq

structure Loan where
  id : Nat
  borrowerId : Nat
  borrowerName : String
  amount : Rat
  interestRate : Rat
  paymentSchedule : Schedule
  status : LoanStatus
  requestedAt : Int
  approvedAt : Option Int
  dueDate : Option Int
  totalDue : Rat
  principalPaid : Rat
  interestPaid : Rat
  isOverdue : Bool
  overdueInterestApplied : Bool
  deriving DecidableEq

structure Payment where
  id : Nat
  loanId : Nat
  borrowerId : Nat
  amount : Rat
  method : Method
  paidAt : Int
  principalAmount : Rat
  interestAmount : Rat
  deriving DecidableEq

structure LendingState where
  users : List User
  capital : List Capital
  loans : List Loan
  payments : List Payment
  currentUser : Option User
  deriving DecidableEq

/-- Errors thrown by LendingApp.tsx, one constructor per distinct message. -/
inductive Err where
  | maxBorrowersReached
  | onlyOneLenderAllowed
  | insufficientAvailableCapital
  | maxLoanAmountExceeded
  | alreadyHasActiveLoan
  | insufficientCapitalToApprove
  | paymentExceedsBalance
  deriving DecidableEq

def MAX_BORROWERS : Nat := 19

def MAX_LOAN_AMOUNT : Rat := 1000

def WEEKLY_INTEREST_RATE : Rat := 2 / 100

def MONTHLY_INTEREST_RATE : Rat := 6 / 100

/-- The ternary `paymentSchedule === 'weekly' ? WEEKLY : MONTHLY` used at
loan request time and in the overdue sweep. -/
def scheduleRate : Schedule → Rat
  | Schedule.weekly => WEEKLY_INTEREST_RATE
  | Schedule.monthly => MONTHLY_INTEREST_RATE

/-- Due-date arithmetic: `setDate(+7)` for weekly, `setMonth(+1)` for
monthly.  A JS calendar month is 28 to 31 days; it is embedded as 30 days
in milliseconds since no claim depends on the period length, only on
ordering against `now`. -/
def addPeriod : Schedule → Int → Int
  | Schedule.weekly, now => now + 7 * 86400000
  | Schedule.monthly, now => now + 30 * 86400000

/-- Initial useState value of LendingApp. -/
def initialState : LendingState :=
  { users := [], capital := [], loans := [], payments := [], currentUser := none }

/-- Sum `state.capital.reduce((sum, cap) => sum + cap.amount, 0)`, computed
inline in withdrawCapital, approveLoan and LenderDashboard. -/
def totalCapital (st : LendingState) : Rat :=
  st.capital.foldl (fun sum cap => sum + cap.amount) 0

/-- Sum of `loan.amount` over loans with status approved, computed inline
in withdrawCapital, approveLoan and LenderDashboard. -/
def totalLoaned (st : LendingState) : Rat :=
  (st.loans.filter (fun l => l.status == LoanStatus.approved)).foldl
    (fun sum l => sum + l.amount) 0

/-- The `availableCapital = totalCapital - totalLoaned` expression the code
recomputes inline at each of its three use sites. -/
def availableCapital (st : LendingState) : Rat :=
  totalCapital st - totalLoaned st

/-- LendingApp.tsx `registerUser` (lines 94-118). -/
def registerUser (newId : Nat) (now : Int) (name : String) (role : Role)
    (st : LendingState) : Except Err LendingState :=
  let borrowerCount := (st.users.filter (fun u => u.role == Role.borrower)).length
  let lenderCount := (st.users.filter (fun u => u.role == Role.lender)).length
  if role = Role.borrower ∧ MAX_BORROWERS ≤ borrowerCount then
    Except.error Err.maxBorrowersReached
  else if role = Role.lender ∧ 1 ≤ lenderCount then
    Except.error Err.onlyOneLenderAllowed
  else
    let newUser : User := { id := newId, name := name, role := role, joinedAt := now }
    Except.ok { st with users := st.users ++ [newUser], currentUser := some newUser }

/-- LendingApp.tsx `depositCapital` (lines 120-134); never throws. -/
def depositCapital (newId : Nat) (now : Int) (amount : Rat)
    (st : LendingState) : LendingState :=
  match st.currentUser with
  | none => st
  | some u =>
    if u.role = Role.lender then
      { st with capital :=
          st.capital ++ [{ id := newId, lenderId := u.id, amount := amount, addedAt := now }] }
    else st

/-- LendingApp.tsx `withdrawCapital` (lines 136-160). -/
def withdrawCapital (newId : Nat) (now : Int) (amount : Rat)
    (st : LendingState) : Except Err LendingState :=
  match st.currentUser with
  | none => Except.ok st
  | some u =>
    if u.role = Role.lender then
      if availableCapital st < amount then
        Except.error Err.insufficientAvailableCapital
      else
        Except.ok { st with capital :=
          st.capital ++ [{ id := newId, lenderId := u.id, amount := -amount, addedAt := now }] }
    else Except.ok st

/-- LendingApp.tsx `requestLoan` (lines 162-202). -/
def requestLoan (newId : Nat) (now : Int) (amount : Rat) (sched : Schedule)
    (st : LendingState) : Except Err LendingState :=
  match st.currentUser with
  | none => Except.ok st
  | some u =>
    if u.role = Role.borrower then
      if MAX_LOAN_AMOUNT < amount then
        Except.error Err.maxLoanAmountExceeded
      else if st.loans.any (fun l => l.borrowerId == u.id &&
          (l.status == LoanStatus.pending || l.status == LoanStatus.approved)) then
        Except.error Err.alreadyHasActiveLoan
      else
        let rate := scheduleRate sched
        Except.ok { st with loans := st.loans ++ [{
          id := newId
          borrowerId := u.id
          borrowerName := u.name
          amount := amount
          interestRate := rate
          paymentSchedule := sched
          status := LoanStatus.pending
          requestedAt := now
          approvedAt := none
          dueDate := none
          totalDue := amount + amount * rate
          principalPaid := 0
          interestPaid := 0
          isOverdue := false
          overdueInterestApplied := false }] }
    else Except.ok st

/-- LendingApp.tsx `approveLoan` (lines 204-248).  Note the source checks
only that the loan exists, never its current status. -/
def approveLoan (now : Int) (loanId : Nat) (approve : Bool)
    (st : LendingState) : Except Err LendingState :=
  match st.currentUser with
  | none => Except.ok st
  | some u =>
    if u.role = Role.lender then
      match st.loans.find? (fun l => l.id == loanId) with
      | none => Except.ok st
      | some loan =>
        if approve then
          if availableCapital st < loan.amount then
            Except.error Err.insufficientCapitalToApprove
          else
            let dueDate := addPeriod loan.paymentSchedule now
            Except.ok { st with loans := st.loans.map (fun l =>
              if l.id == loanId then
                { l with
                  status := LoanStatus.approved
                  approvedAt := some now
                  dueDate := some dueDate }
              else l) }
        else
          Except.ok { st with loans := st.loans.map (fun l =>
            if l.id == loanId then { l with status := LoanStatus.rejected } else l) }
    else Except.ok st

/-- LendingApp.tsx `recordPayment` (lines 250-304). -/
def recordPayment (newId : Nat) (now : Int) (loanId : Nat) (amount : Rat)
    (method : Method) (st : LendingState) : Except Err LendingState :=
  match st.currentUser with
  | none => Except.ok st
  | some u =>
    if u.role = Role.borrower then
      match st.loans.find? (fun l => l.id == loanId) with
      | none => Except.ok st
      | some loan =>
        if loan.status = LoanStatus.approved then
          let remainingBalance := loan.totalDue - loan.principalPaid - loan.interestPaid
          if remainingBalance < amount then
            Except.error Err.paymentExceedsBalance
          else
            let remainingInterest := loan.amount * loan.interestRate - loan.interestPaid +
              (if loan.overdueInterestApplied then loan.amount * loan.interestRate else 0)
            let interestAmount := min amount remainingInterest
            let principalAmount := amount - interestAmount
            let newPayment : Payment := {
              id := newId
              loanId := loanId
              borrowerId := u.id
              amount := amount
              method := method
              paidAt := now
              principalAmount := principalAmount
              interestAmount := interestAmount }
            let paid : Loan := { loan with
              principalPaid := loan.principalPaid + principalAmount
              interestPaid := loan.interestPaid + interestAmount }
            let updatedLoan : Loan :=
              if paid.principalPaid + paid.interestPaid < paid.totalDue then
                { paid with
                  dueDate := some (addPeriod loan.paymentSchedule now)
                  isOverdue := false
                  overdueInterestApplied := false }
              else paid
            Except.ok { st with
              loans := st.loans.map (fun l => if l.id == loanId then updatedLoan else l)
              payments := st.payments ++ [newPayment] }
        else Except.ok st
    else Except.ok st

/-- Per-loan body of LendingApp.tsx `updateOverdueLoans` (lines 70-92). -/
def sweepLoan (now : Int) (loan : Loan) : Loan :=
  match loan.dueDate with
  | none => loan
  | some d =>
    if loan.status = LoanStatus.approved ∧ d < now then
      let newLoan : Loan := { loan with isOverdue := true }
      if loan.isOverdue = false ∧ loan.overdueInterestApplied = false then
        let remainingBalance := loan.totalDue - loan.principalPaid - loan.interestPaid
        let overdueInterest := remainingBalance * scheduleRate loan.paymentSchedule
        { newLoan with
          totalDue := newLoan.totalDue + overdueInterest
          overdueInterestApplied := true }
      else newLoan
    else loan

/-- LendingApp.tsx `updateOverdueLoans`: maps `sweepLoan` over all loans. -/
def updateOverdueLoans (now : Int) (st : LendingState) : LendingState :=
  { st with loans := st.loans.map (sweepLoan now) }

/-- LendingApp.tsx `systemReset` (lines 306-316): keeps only the current
user (the source comment reads "Keep only current user"). -/
def systemReset (st : LendingState) : LendingState :=
  match st.currentUser with
  | none => st
  | some u =>
    if u.role = Role.lender then
      { users := [u], capital := [], loans := [], payments := [], currentUser := some u }
    else st

/-- LendingApp.tsx `switchUser` (lines 318-326). -/
def switchUser (userId : Nat) (st : LendingState) : LendingState :=
  match st.users.find? (fun u => u.id == userId) with
  | none => st
  | some u => { st with currentUser := some u }

deriving instance DecidableEq for Except

/-- Contribution of a single loan to the inline `totalLoaned` sum: its full
original amount while status is approved, else zero. -/
def loanContrib (l : Loan) : Rat :=
  if l.status = LoanStatus.approved then l.amount else 0

theorem foldl_add_map {α : Type} (f : α → Rat) (l : List α) (a : Rat) :
    List.foldl (fun s x => s + f x) a l = a + (l.map f).sum := by
  induction l generalizing a with
  | nil => simp
  | cons x xs ih => simp [ih]; ring

theorem totalCapital_eq (st : LendingState) :
    totalCapital st = (st.capital.map Capital.amount).sum := by
  unfold totalCapital
  rw [foldl_add_map, zero_add]

theorem filter_amount_sum (l : List Loan) :
    ((l.filter (fun x => x.status == LoanStatus.approved)).map Loan.amount).sum
      = (l.map loanContrib).sum := by
  induction l with
  | nil => simp
  | cons x xs ih =>
    by_cases hx : x.status = LoanStatus.approved
    · simp [List.filter_cons, hx, loanContrib, ih]
    · simp [List.filter_cons, hx, loanContrib, ih]

theorem totalLoaned_eq (st : LendingState) :
    totalLoaned st = (st.loans.map loanContrib).sum := by
  unfold totalLoaned
  rw [foldl_add_map, zero_add, filter_amount_sum]

def aliceUser : User := { id := 1, name := "Alice", role := Role.lender, joinedAt := 0 }

def bobUser : User := { id := 2, name := "Bob", role := Role.borrower, joinedAt := 0 }

def aliceState : LendingState :=
  { users := [aliceUser], capital := [], loans := [], payments := [], currentUser := some aliceUser }

def resetPre : LendingState :=
  { users := [aliceUser, bobUser], capital := [], loans := [], payments := [],
    currentUser := some aliceUser }

def cap500 : Capital := { id := 10, lenderId := 1, amount := 500, addedAt := 0 }

/-- A loan of 300 at the monthly schedule that the lender has rejected. -/
def rejLoan : Loan := {
  id := 4
  borrowerId := 2
  borrowerName := "Bob"
  amount := 300
  interestRate := 6 / 100
  paymentSchedule := Schedule.monthly
  status := LoanStatus.rejected
  requestedAt := 0
  approvedAt := none
  dueDate := none
  totalDue := 318
  principalPaid := 0
  interestPaid := 0
  isOverdue := false
  overdueInterestApplied := false }

def rejState : LendingState :=
  { users := [aliceUser, bobUser], capital := [cap500], loans := [rejLoan], payments := [],
    currentUser := some aliceUser }

/-- C10: a successful registerUser appends the new user to the registry and
also makes that user the acting current user of the session. -/
theorem registerUser_switches_session (newId : Nat) (now : Int) (name : String)
    (role : Role) (st st' : LendingState)
    (h : registerUser newId now name role st = Except.ok st') :
    st'.currentUser = some { id := newId, name := name, role := role, joinedAt := now } ∧
    st'.users = st.users ++ [{ id := newId, name := name, role := role, joinedAt := now }] := by
  simp only [registerUser] at h
  split_ifs at h with h1 h2
  rw [Except.ok.injEq] at h
  subst h
  exact ⟨rfl, rfl⟩

theorem registerUser_switches_session_witness :
    aliceState.currentUser = some { id := 1, name := "Alice", role := Role.lender, joinedAt := 0 } ∧
    aliceState.users =
      initialState.users ++ [{ id := 1, name := "Alice", role := Role.lender, joinedAt := 0 }] :=
  registerUser_switches_session 1 0 "Alice" Role.lender initialState aliceState (by decide)

/-- C2 counterexample: systemReset does not retain every registered user;
in a state with lender Alice acting and borrower Bob registered, Bob is
gone after the reset. -/
theorem systemReset_drops_other_users :
    bobUser ∈ resetPre.users ∧ bobUser ∉ (systemReset resetPre).users := by
  decide

/-- C2 amended: systemReset, invoked while a lender is the current user,
discards all capital entries, loans and payments and retains only the
acting current user, not the full registry. -/
theorem systemReset_keeps_only_current (st : LendingState) (u : User)
    (hu : st.currentUser = some u) (hrole : u.role = Role.lender) :
    systemReset st =
      { users := [u], capital := [], loans := [], payments := [], currentUser := some u } := by
  unfold systemReset
  rw [hu]
  simp [hrole]

theorem systemReset_keeps_only_current_witness :
    systemReset resetPre =
      { users := [aliceUser], capital := [], loans := [], payments := [],
        currentUser := some aliceUser } :=
  systemReset_keeps_only_current resetPre aliceUser rfl rfl

/-- C3 counterexample: re-deciding an already-rejected loan does not fail;
approveLoan on a rejected loan succeeds and sets its status to approved. -/
theorem approveLoan_redecides_rejected :
    (approveLoan 99 4 true rejState).toOption.map (fun s => s.loans.map Loan.status)
      = some [LoanStatus.approved] := by
  norm_num +decide [approveLoan, rejState, rejLoan, cap500, aliceUser, bobUser,
    availableCapital, totalCapital, totalLoaned, Except.toOption]

/-- C3 amended: approveLoan never inspects the loan's current status; for
any existing loan (pending, approved or rejected alike), approving succeeds
whenever the capital check passes, overwriting status, approvedAt and
dueDate.  In particular a rejected loan can later become approved. -/
theorem approveLoan_no_status_check (now : Int) (loanId : Nat) (st : LendingState)
    (u : User) (loan : Loan)
    (hu : st.currentUser = some u) (hrole : u.role = Role.lender)
    (hfind : st.loans.find? (fun l => l.id == loanId) = some loan)
    (hcap : ¬ availableCapital st < loan.amount) :
    approveLoan now loanId true st = Except.ok { st with loans := st.loans.map (fun l =>
      if l.id == loanId then
        { l with
          status := LoanStatus.approved
          approvedAt := some now
          dueDate := some (addPeriod loan.paymentSchedule now) }
      else l) } := by
  unfold approveLoan
  rw [hu]
  simp [hrole, hfind, hcap]

theorem approveLoan_no_status_check_witness :
    approveLoan 99 4 true rejState = Except.ok { rejState with loans := rejState.loans.map (fun l =>
      if l.id == 4 then
        { l with
          status := LoanStatus.approved
          approvedAt := some 99
          dueDate := some (addPeriod rejLoan.paymentSchedule 99) }
      else l) } :=
  approveLoan_no_status_check 99 4 rejState aliceUser rejLoan rfl rfl rfl
    (by norm_num +decide [availableCapital, totalCapital, totalLoaned, rejState, rejLoan, cap500])

/-- An approved monthly loan of 300 (Scenario A of the spec) with nothing
paid yet. -/
def activeLoan : Loan := {
  id := 4
  borrowerId := 2
  borrowerName := "Bob"
  amount := 300
  interestRate := 6 / 100
  paymentSchedule := Schedule.monthly
  status := LoanStatus.approved
  requestedAt := 0
  approvedAt := some 0
  dueDate := some 100
  totalDue := 318
  principalPaid := 0
  interestPaid := 0
  isOverdue := false
  overdueInterestApplied := false }

/-- The approved loan after payments of 18 (all interest) and 300 (all
principal): fully paid, still status approved. -/
def paidLoan : Loan :=
  { activeLoan with principalPaid := 300, interestPaid := 18 }

def paidState : LendingState :=
  { users := [aliceUser, bobUser], capital := [cap500], loans := [paidLoan], payments := [],
    currentUser := some bobUser }

def paidStateLender : LendingState :=
  { paidState with currentUser := some aliceUser }

def activeState : LendingState :=
  { users := [aliceUser, bobUser], capital := [cap500], loans := [activeLoan], payments := [],
    currentUser := some bobUser }

/-- Scenario B/E: the loan after a payment of 150 (interest 18, principal
132), with its cycle reset. -/
def partPaidLoan : Loan :=
  { activeLoan with
    principalPaid := 132
    interestPaid := 18
    dueDate := some (addPeriod Schedule.monthly 5) }

def partPaidPayment : Payment := {
  id := 9
  loanId := 4
  borrowerId := 2
  amount := 150
  method := Method.cash
  paidAt := 5
  principalAmount := 132
  interestAmount := 18 }

def activePost : LendingState :=
  { users := [aliceUser, bobUser], capital := [cap500], loans := [partPaidLoan],
    payments := [partPaidPayment], currentUser := some bobUser }

/-- C5 counterexample: a borrower whose approved loan is fully paid
(principalPaid + interestPaid = totalDue) is still blocked from a new
request, because the duplicate-active check tests raw status only. -/
theorem requestLoan_blocked_when_fully_paid :
    paidLoan.principalPaid + paidLoan.interestPaid = paidLoan.totalDue ∧
    requestLoan 7 5 100 Schedule.weekly paidState = Except.error Err.alreadyHasActiveLoan := by
  constructor
  · norm_num [paidLoan, activeLoan]
  · norm_num +decide [requestLoan, paidState, paidLoan, activeLoan, MAX_LOAN_AMOUNT]

/-- C5 amended: the duplicate-active-loan check in requestLoan tests raw
status only; any loan of the acting borrower with status pending or
approved blocks a new request, regardless of outstanding balance. -/
theorem requestLoan_status_only (newId : Nat) (now : Int) (amount : Rat) (sched : Schedule)
    (st : LendingState) (u : User) (loan : Loan)
    (hu : st.currentUser = some u) (hrole : u.role = Role.borrower)
    (hamt : ¬ MAX_LOAN_AMOUNT < amount)
    (hmem : loan ∈ st.loans) (hbid : loan.borrowerId = u.id)
    (hst : loan.status = LoanStatus.pending ∨ loan.status = LoanStatus.approved) :
    requestLoan newId now amount sched st = Except.error Err.alreadyHasActiveLoan := by
  have hany : st.loans.any (fun l => l.borrowerId == u.id &&
      (l.status == LoanStatus.pending || l.status == LoanStatus.approved)) = true := by
    rw [List.any_eq_true]
    refine ⟨loan, hmem, ?_⟩
    rw [Bool.and_eq_true, Bool.or_eq_true]
    refine ⟨by simp [hbid], ?_⟩
    rcases hst with h | h <;> simp [h]
  unfold requestLoan
  rw [hu]
  simp [hrole, hamt, hany]

theorem requestLoan_status_only_witness :
    requestLoan 7 5 100 Schedule.weekly paidState = Except.error Err.alreadyHasActiveLoan :=
  requestLoan_status_only 7 5 100 Schedule.weekly paidState bobUser paidLoan rfl rfl
    (by norm_num [MAX_LOAN_AMOUNT]) (by simp [paidState]) rfl (Or.inr rfl)

/-- C6: every successful recordPayment either leaves payments unchanged (a
silent no-op path) or appends exactly one payment whose principal and
interest portions sum to the paid amount exactly. -/
theorem recordPayment_allocation (newId : Nat) (now : Int) (loanId : Nat) (amount : Rat)
    (method : Method) (st st' : LendingState)
    (h : recordPayment newId now loanId amount method st = Except.ok st') :
    st'.payments = st.payments ∨
    ∃ p : Payment, st'.payments = st.payments ++ [p] ∧ p.amount = amount ∧
      p.principalAmount + p.interestAmount = amount := by
  simp only [recordPayment] at h
  split at h
  · injection h with h
    subst h
    exact Or.inl rfl
  case _ u hcu =>
    by_cases hr : u.role = Role.borrower
    · rw [if_pos hr] at h
      split at h
      · injection h with h
        subst h
        exact Or.inl rfl
      case _ loan hfind =>
        by_cases hs : loan.status = LoanStatus.approved
        · rw [if_pos hs] at h
          by_cases hb : loan.totalDue - loan.principalPaid - loan.interestPaid < amount
          · rw [if_pos hb] at h
            exact absurd h (by simp)
          · rw [if_neg hb] at h
            injection h with h
            subst h
            right
            refine ⟨_, rfl, rfl, ?_⟩
            ring
        · rw [if_neg hs] at h
          injection h with h
          subst h
          exact Or.inl rfl
    · rw [if_neg hr] at h
      injection h with h
      subst h
      exact Or.inl rfl

theorem recordPayment_allocation_witness :
    activePost.payments = activeState.payments ∨
    ∃ p : Payment, activePost.payments = activeState.payments ++ [p] ∧ p.amount = 150 ∧
      p.principalAmount + p.interestAmount = 150 :=
  recordPayment_allocation 9 5 4 150 Method.cash activeState activePost
    (by norm_num +decide [recordPayment, activeState, activeLoan, cap500, partPaidPayment,
      activePost, partPaidLoan])

theorem sweepLoan_of_isOverdue (now : Int) (l : Loan) (h : l.isOverdue = true) :
    sweepLoan now l = l := by
  obtain ⟨lid, bid, bn, amt, rate, sched, status, rAt, aAt, dd, td, pp, ip, od, oia⟩ := l
  cases dd with
  | none => rfl
  | some d =>
    simp only [sweepLoan]
    split_ifs with h1 h2
    · exact absurd h2.1 (by simp_all)
    · simp_all
    · rfl

theorem sweepLoan_cases (now : Int) (l : Loan) :
    sweepLoan now l = l ∨ (sweepLoan now l).isOverdue = true := by
  obtain ⟨lid, bid, bn, amt, rate, sched, status, rAt, aAt, dd, td, pp, ip, od, oia⟩ := l
  cases dd with
  | none => exact Or.inl rfl
  | some d =>
    simp only [sweepLoan]
    split_ifs with h1 h2
    · exact Or.inr rfl
    · exact Or.inr rfl
    · exact Or.inl rfl

theorem sweepLoan_idem (now : Int) (l : Loan) :
    sweepLoan now (sweepLoan now l) = sweepLoan now l := by
  rcases sweepLoan_cases now l with h | h
  · simp only [h]
  · exact sweepLoan_of_isOverdue now _ h

theorem sweepLoan_totalDue_eq (now : Int) (l : Loan)
    (h : ¬ (l.isOverdue = false ∧ l.overdueInterestApplied = false)) :
    (sweepLoan now l).totalDue = l.totalDue := by
  obtain ⟨lid, bid, bn, amt, rate, sched, status, rAt, aAt, dd, td, pp, ip, od, oia⟩ := l
  cases dd with
  | none => rfl
  | some d =>
    simp only [sweepLoan]
    split_ifs with h1 <;> rfl

/-- C7: the overdue sweep is idempotent per overdue episode: on a loan that
is already flagged overdue a further sweep changes nothing (in particular
totalDue); sweeping twice equals sweeping once; and any sweep that changes
totalDue happened on a loan whose overdue flags were both clear (they are
cleared only by recordPayment's cycle reset). -/
theorem overdueSweep_idempotent (now : Int) (loan : Loan) :
    (loan.isOverdue = true → sweepLoan now loan = loan) ∧
    sweepLoan now (sweepLoan now loan) = sweepLoan now loan ∧
    ((sweepLoan now loan).totalDue ≠ loan.totalDue →
      loan.isOverdue = false ∧ loan.overdueInterestApplied = false) := by
  refine ⟨fun h => sweepLoan_of_isOverdue now loan h, sweepLoan_idem now loan, fun h => ?_⟩
  by_cases hb : loan.isOverdue = false ∧ loan.overdueInterestApplied = false
  · exact hb
  · exact absurd (sweepLoan_totalDue_eq now loan hb) h

/-- Scenario E input: the part-paid loan past its due date, flags clear. -/
def preOverdueLoan : Loan :=
  { activeLoan with principalPaid := 114, interestPaid := 18 }

/-- Scenario E output: the loan after the sweep's one-time bump of
186 * 6% = 11.16, so totalDue = 329.16. -/
def bumpedLoan : Loan :=
  { preOverdueLoan with
    totalDue := 32916 / 100
    isOverdue := true
    overdueInterestApplied := true }

theorem overdueSweep_idempotent_witness :
    sweepLoan 200 bumpedLoan = bumpedLoan :=
  (overdueSweep_idempotent 200 bumpedLoan).1 rfl

/-- Follows the spec's words (§4.2): available capital is the entries sum
minus the outstanding principal (amount − principalPaid) of approved loans,
a loan counting as deployed only while that outstanding principal is
positive. -/
def availableCapitalSpec (st : LendingState) : Rat :=
  (st.capital.map Capital.amount).sum -
    ((st.loans.filter (fun l => l.status == LoanStatus.approved &&
        decide (0 < l.amount - l.principalPaid))).map
      (fun l => l.amount - l.principalPaid)).sum

/-- C1 counterexample: with capital 500 and one approved loan of 300 whose
principal is fully repaid, the code still subtracts the full original
amount (available = 200), while the spec's derivation yields 500. -/
theorem availableCapital_cex :
    availableCapital paidState = 200 ∧ availableCapitalSpec paidState = 500 ∧
    (200 : Rat) ≠ 500 := by
  refine ⟨?_, ?_, by norm_num⟩ <;>
    norm_num +decide [availableCapital, availableCapitalSpec, totalCapital, totalLoaned,
      paidState, paidLoan, activeLoan, cap500]

/-- C1 amended: availableCapital is the entries sum minus the sum of the
full original amounts of all approved loans, with no credit for principal
already repaid and no exclusion of fully-repaid loans; withdrawCapital and
approveLoan both check the requested amount against exactly this value. -/
theorem availableCapital_full_principal (st : LendingState) (u : User)
    (newId : Nat) (now : Int) (amount : Rat)
    (hu : st.currentUser = some u) (hrole : u.role = Role.lender) :
    availableCapital st = totalCapital st -
      ((st.loans.filter (fun l => l.status == LoanStatus.approved)).map Loan.amount).sum ∧
    (withdrawCapital newId now amount st = Except.error Err.insufficientAvailableCapital ↔
      availableCapital st < amount) ∧
    (∀ loanId loan, st.loans.find? (fun l => l.id == loanId) = some loan →
      (approveLoan now loanId true st = Except.error Err.insufficientCapitalToApprove ↔
        availableCapital st < loan.amount)) := by
  refine ⟨?_, ?_, ?_⟩
  · unfold availableCapital totalLoaned
    rw [foldl_add_map, zero_add]
  · unfold withdrawCapital
    rw [hu]
    simp only [hrole, if_true]
    split_ifs with hlt <;> simp [hlt]
  · intro loanId loan hfind
    unfold approveLoan
    rw [hu]
    simp only [hrole, if_true, hfind]
    split_ifs with hlt <;> simp [hlt]

theorem availableCapital_full_principal_witness :
    (availableCapital paidStateLender = totalCapital paidStateLender -
      ((paidStateLender.loans.filter (fun l => l.status == LoanStatus.approved)).map
        Loan.amount).sum) ∧
    (withdrawCapital 11 7 300 paidStateLender = Except.error Err.insufficientAvailableCapital ↔
      availableCapital paidStateLender < 300) ∧
    (∀ loanId loan, paidStateLender.loans.find? (fun l => l.id == loanId) = some loan →
      (approveLoan 7 loanId true paidStateLender = Except.error Err.insufficientCapitalToApprove ↔
        availableCapital paidStateLender < loan.amount)) :=
  availableCapital_full_principal paidStateLender aliceUser 11 7 300 rfl rfl

def bumpedState : LendingState :=
  { users := [aliceUser, bobUser], capital := [cap500], loans := [bumpedLoan], payments := [],
    currentUser := some bobUser }

/-- The loan and payment produced by paying 50 on the bumped loan: the code
takes interest = min(50, 300*0.06 − 18 + 300*0.06) = 18. -/
def bumpedPaidLoan : Loan :=
  { bumpedLoan with
    principalPaid := 146
    interestPaid := 36
    dueDate := some (addPeriod Schedule.monthly 200)
    isOverdue := false
    overdueInterestApplied := false }

def bumpedPayment : Payment := {
  id := 9
  loanId := 4
  borrowerId := 2
  amount := 50
  method := Method.cash
  paidAt := 200
  principalAmount := 32
  interestAmount := 18 }

def bumpedPost : LendingState :=
  { users := [aliceUser, bobUser], capital := [cap500], loans := [bumpedPaidLoan],
    payments := [bumpedPayment], currentUser := some bobUser }

/-- C4 counterexample: Scenario E state.  The sweep bumped totalDue by
186 * 6% = 11.16, none of it repaid, so the claim's outstanding interest is
(300*6% − 18) + 11.16 = 11.16 and its interestPortion would be
min(50, 11.16) = 11.16; the code instead computes
min(50, 300*6% − 18 + 300*6%) = 18. -/
theorem recordPayment_overdue_interest_cex :
    sweepLoan 200 preOverdueLoan = bumpedLoan ∧
    recordPayment 9 200 4 50 Method.cash bumpedState = Except.ok bumpedPost ∧
    bumpedPost.payments.map Payment.interestAmount = [18] ∧
    min (50 : Rat) (300 * (6 / 100) - 18 + (318 - 114 - 18) * (6 / 100)) = 1116 / 100 ∧
    (18 : Rat) ≠ 1116 / 100 := by
  refine ⟨?_, ?_, rfl, by norm_num, by norm_num⟩
  · norm_num +decide [sweepLoan, preOverdueLoan, activeLoan, bumpedLoan, scheduleRate,
      MONTHLY_INTEREST_RATE]
  · norm_num +decide [recordPayment, bumpedState, bumpedLoan, preOverdueLoan, activeLoan,
      cap500, bumpedPost, bumpedPaidLoan, bumpedPayment]

/-- C4 amended: recordPayment computes outstanding interest as
(amount * rate − interestPaid) plus, when the overdue flag is set, one
additional full schedule interest on the original principal
(amount * rate), not the actual bump that was added to totalDue and with no
tracking of how much of the bump was already paid; interestPortion =
min(amount, that quantity) and principalPortion is the remainder. -/
theorem recordPayment_interest_formula (newId : Nat) (now : Int) (loanId : Nat)
    (amount : Rat) (method : Method) (st : LendingState) (u : User) (loan : Loan)
    (hu : st.currentUser = some u) (hrole : u.role = Role.borrower)
    (hfind : st.loans.find? (fun l => l.id == loanId) = some loan)
    (hstatus : loan.status = LoanStatus.approved)
    (hbal : ¬ loan.totalDue - loan.principalPaid - loan.interestPaid < amount) :
    ∃ st', recordPayment newId now loanId amount method st = Except.ok st' ∧
      ∃ p : Payment, st'.payments = st.payments ++ [p] ∧
        p.interestAmount = min amount (loan.amount * loan.interestRate - loan.interestPaid +
          (if loan.overdueInterestApplied then loan.amount * loan.interestRate else 0)) ∧
        p.principalAmount = amount - p.interestAmount := by
  unfold recordPayment
  rw [hu]
  simp only [hrole, if_true, hfind, hstatus, if_pos, hbal, if_neg, not_false_iff]
  exact ⟨_, rfl, _, rfl, rfl, rfl⟩

theorem recordPayment_interest_formula_witness :
    ∃ st', recordPayment 9 200 4 50 Method.cash bumpedState = Except.ok st' ∧
      ∃ p : Payment, st'.payments = bumpedState.payments ++ [p] ∧
        p.interestAmount = min 50 (bumpedLoan.amount * bumpedLoan.interestRate -
          bumpedLoan.interestPaid +
          (if bumpedLoan.overdueInterestApplied then
            bumpedLoan.amount * bumpedLoan.interestRate else 0)) ∧
        p.principalAmount = 50 - p.interestAmount :=
  recordPayment_interest_formula 9 200 4 50 Method.cash bumpedState bobUser bumpedLoan
    rfl rfl rfl rfl
    (by norm_num [bumpedLoan, preOverdueLoan, activeLoan])

theorem availableCapital_eq (st : LendingState) :
    availableCapital st =
      (st.capital.map Capital.amount).sum - (st.loans.map loanContrib).sum := by
  rw [availableCapital, totalCapital_eq, totalLoaned_eq]

theorem scheduleRate_nonneg (s : Schedule) : 0 ≤ scheduleRate s := by
  cases s <;> norm_num [scheduleRate, WEEKLY_INTEREST_RATE, MONTHLY_INTEREST_RATE]

theorem sum_map_congr (l : List Loan) (g : Loan → Loan) (f : Loan → Rat)
    (h : ∀ x ∈ l, f (g x) = f x) : ((l.map g).map f).sum = (l.map f).sum := by
  rw [List.map_map]
  exact congrArg List.sum (List.map_congr_left h)

theorem map_id_congr (l : List Loan) (g : Loan → Loan)
    (h : ∀ x ∈ l, (g x).id = x.id) : (l.map g).map Loan.id = l.map Loan.id := by
  rw [List.map_map]
  exact List.map_congr_left h

theorem sum_map_update (f : Loan → Rat) (g : Loan → Loan) (loanId : Nat)
    (loans : List Loan) (loan : Loan)
    (hnd : (loans.map Loan.id).Nodup)
    (hfind : loans.find? (fun l => l.id == loanId) = some loan)
    (hg : ∀ x, (x.id == loanId) = false → g x = x) :
    ((loans.map g).map f).sum = (loans.map f).sum + f (g loan) - f loan := by
  induction loans with
  | nil => simp at hfind
  | cons x xs ih =>
    simp only [List.map_cons] at hnd ⊢
    by_cases hx : (x.id == loanId) = true
    · have hfx : loan = x := by
        have hpos : List.find? (fun l => l.id == loanId) (x :: xs) = some x :=
          List.find?_cons_of_pos xs hx
        rw [hpos] at hfind
        exact (Option.some.inj hfind).symm
      have hxid : x.id = loanId := by simpa using hx
      have hxs : xs.map g = xs := by
        have hfix : ∀ y ∈ xs, g y = y := by
          intro y hy
          apply hg
          have hnin : x.id ∉ xs.map Loan.id := (List.nodup_cons.mp hnd).1
          have hne : y.id ≠ x.id := by
            intro hEq
            exact hnin (hEq ▸ List.mem_map_of_mem Loan.id hy)
          rw [beq_eq_false_iff_ne]
          rw [← hxid]
          exact hne
        calc xs.map g = xs.map id := List.map_congr_left hfix
          _ = xs := List.map_id xs
      subst hfx
      rw [hxs]
      simp only [List.map_cons, List.sum_cons]
      ring
    · have hx' : (x.id == loanId) = false := by
        rw [Bool.not_eq_true] at hx
        exact hx
      have hneg : List.find? (fun l => l.id == loanId) (x :: xs) =
          List.find? (fun l => l.id == loanId) xs :=
        List.find?_cons_of_neg xs (by simp [hx'])
      rw [hneg] at hfind
      have := ih (List.nodup_cons.mp hnd).2 hfind
      rw [hg x hx']
      simp only [List.map_cons, List.sum_cons, this]
      ring

theorem sweepLoan_id (now : Int) (l : Loan) : (sweepLoan now l).id = l.id := by
  obtain ⟨lid, bid, bn, amt, rate, sched, status, rAt, aAt, dd, td, pp, ip, od, oia⟩ := l
  cases dd with
  | none => rfl
  | some d =>
    simp only [sweepLoan]
    split_ifs <;> rfl

theorem sweepLoan_amount (now : Int) (l : Loan) : (sweepLoan now l).amount = l.amount := by
  obtain ⟨lid, bid, bn, amt, rate, sched, status, rAt, aAt, dd, td, pp, ip, od, oia⟩ := l
  cases dd with
  | none => rfl
  | some d =>
    simp only [sweepLoan]
    split_ifs <;> rfl

theorem sweepLoan_status (now : Int) (l : Loan) : (sweepLoan now l).status = l.status := by
  obtain ⟨lid, bid, bn, amt, rate, sched, status, rAt, aAt, dd, td, pp, ip, od, oia⟩ := l
  cases dd with
  | none => rfl
  | some d =>
    simp only [sweepLoan]
    split_ifs <;> rfl

theorem sweepLoan_principalPaid (now : Int) (l : Loan) :
    (sweepLoan now l).principalPaid = l.principalPaid := by
  obtain ⟨lid, bid, bn, amt, rate, sched, status, rAt, aAt, dd, td, pp, ip, od, oia⟩ := l
  cases dd with
  | none => rfl
  | some d =>
    simp only [sweepLoan]
    split_ifs <;> rfl

theorem sweepLoan_interestPaid (now : Int) (l : Loan) :
    (sweepLoan now l).interestPaid = l.interestPaid := by
  obtain ⟨lid, bid, bn, amt, rate, sched, status, rAt, aAt, dd, td, pp, ip, od, oia⟩ := l
  cases dd with
  | none => rfl
  | some d =>
    simp only [sweepLoan]
    split_ifs <;> rfl

theorem sweepLoan_contrib (now : Int) (l : Loan) :
    loanContrib (sweepLoan now l) = loanContrib l := by
  unfold loanContrib
  rw [sweepLoan_status, sweepLoan_amount]

theorem sweepLoan_totalDue_mono (now : Int) (l : Loan)
    (h : l.principalPaid + l.interestPaid ≤ l.totalDue) :
    l.totalDue ≤ (sweepLoan now l).totalDue := by
  obtain ⟨lid, bid, bn, amt, rate, sched, status, rAt, aAt, dd, td, pp, ip, od, oia⟩ := l
  dsimp only at h
  cases dd with
  | none => exact le_refl _
  | some d =>
    simp only [sweepLoan]
    split_ifs with h1 h2
    · dsimp only
      have hnn : 0 ≤ (td - pp - ip) * scheduleRate sched :=
        mul_nonneg (by linarith) (scheduleRate_nonneg sched)
      linarith
    · exact le_refl _
    · exact le_refl _

/-- The inductive invariant carried through every command: loan ids are
distinct (Date.now-derived ids, spec section 9), loan amounts are
nonnegative, every loan satisfies principalPaid + interestPaid ≤ totalDue,
and the available capital is nonnegative. -/
def Inv (st : LendingState) : Prop :=
  (st.loans.map Loan.id).Nodup ∧
  (∀ l ∈ st.loans, 0 ≤ l.amount) ∧
  (∀ l ∈ st.loans, l.principalPaid + l.interestPaid ≤ l.totalDue) ∧
  0 ≤ availableCapital st

theorem Inv_initialState : Inv initialState := by
  refine ⟨by simp [initialState], by simp [initialState], by simp [initialState], ?_⟩
  norm_num [availableCapital, totalCapital, totalLoaned, initialState]

theorem Inv_registerUser (newId : Nat) (now : Int) (name : String) (role : Role)
    (st st' : LendingState) (h : registerUser newId now name role st = Except.ok st')
    (hInv : Inv st) : Inv st' := by
  simp only [registerUser] at h
  split_ifs at h
  rw [Except.ok.injEq] at h
  subst h
  exact hInv

theorem Inv_switchUser (userId : Nat) (st : LendingState) (hInv : Inv st) :
    Inv (switchUser userId st) := by
  unfold switchUser
  split
  · exact hInv
  · exact hInv

theorem Inv_systemReset (st : LendingState) (hInv : Inv st) : Inv (systemReset st) := by
  unfold systemReset
  split
  · exact hInv
  · split_ifs
    · refine ⟨by simp, by simp, by simp, ?_⟩
      norm_num [availableCapital, totalCapital, totalLoaned]
    · exact hInv

theorem Inv_depositCapital (newId : Nat) (now : Int) (amount : Rat) (st : LendingState)
    (hamt : 0 ≤ amount) (hInv : Inv st) : Inv (depositCapital newId now amount st) := by
  unfold depositCapital
  split
  · exact hInv
  · split_ifs
    · obtain ⟨h1, h2, h3, h4⟩ := hInv
      refine ⟨h1, h2, h3, ?_⟩
      rw [availableCapital_eq] at h4 ⊢
      simp only [List.map_append, List.sum_append, List.map_cons, List.map_nil,
        List.sum_cons, List.sum_nil]
      linarith
    · exact hInv

theorem Inv_withdrawCapital (newId : Nat) (now : Int) (amount : Rat) (st st' : LendingState)
    (h : withdrawCapital newId now amount st = Except.ok st') (hInv : Inv st) : Inv st' := by
  simp only [withdrawCapital] at h
  split at h
  · injection h with h
    subst h
    exact hInv
  case _ u hcu =>
    split_ifs at h with hrole hlt
    · rw [Except.ok.injEq] at h
      subst h
      obtain ⟨h1, h2, h3, h4⟩ := hInv
      refine ⟨h1, h2, h3, ?_⟩
      push_neg at hlt
      rw [availableCapital_eq] at h4 hlt ⊢
      simp only [List.map_append, List.sum_append, List.map_cons, List.map_nil,
        List.sum_cons, List.sum_nil]
      linarith
    · rw [Except.ok.injEq] at h
      subst h
      exact hInv

theorem Inv_requestLoan (newId : Nat) (now : Int) (amount : Rat) (sched : Schedule)
    (st st' : LendingState) (h : requestLoan newId now amount sched st = Except.ok st')
    (hamt : 0 < amount) (hfresh : ∀ l ∈ st.loans, l.id ≠ newId) (hInv : Inv st) : Inv st' := by
  simp only [requestLoan] at h
  split at h
  · injection h with h
    subst h
    exact hInv
  case _ u hcu =>
    split_ifs at h with hrole hmax hdup
    · rw [Except.ok.injEq] at h
      subst h
      obtain ⟨h1, h2, h3, h4⟩ := hInv
      refine ⟨?_, ?_, ?_, ?_⟩
      · simp only [List.map_append, List.map_cons, List.map_nil]
        rw [List.nodup_append]
        refine ⟨h1, List.nodup_singleton _, ?_⟩
        intro a ha hb
        obtain ⟨l, hl, hid⟩ := List.mem_map.mp ha
        simp only [List.mem_singleton] at hb
        exact hfresh l hl (hb ▸ hid)
      · intro l hl
        rcases List.mem_append.mp hl with hl | hl
        · exact h2 l hl
        · simp only [List.mem_singleton] at hl
          subst hl
          exact le_of_lt hamt
      · intro l hl
        rcases List.mem_append.mp hl with hl | hl
        · exact h3 l hl
        · simp only [List.mem_singleton] at hl
          subst hl
          dsimp only
          have hmul : 0 ≤ amount * scheduleRate sched :=
            mul_nonneg (le_of_lt hamt) (scheduleRate_nonneg sched)
          linarith
      · rw [availableCapital_eq] at h4 ⊢
        simp only [List.map_append, List.sum_append, List.map_cons, List.map_nil,
          List.sum_cons, List.sum_nil, loanContrib]
        simp only [reduceCtorEq, if_false]
        linarith
    · rw [Except.ok.injEq] at h
      subst h
      exact hInv

theorem Inv_approveLoan (now : Int) (loanId : Nat) (approve : Bool) (st st' : LendingState)
    (h : approveLoan now loanId approve st = Except.ok st') (hInv : Inv st) : Inv st' := by
  simp only [approveLoan] at h
  split at h
  · injection h with h
    subst h
    exact hInv
  case _ u hcu =>
    by_cases hrole : u.role = Role.lender
    · rw [if_pos hrole] at h
      split at h
      · injection h with h
        subst h
        exact hInv
      case _ loan hfind =>
        have hmem := List.mem_of_find?_eq_some hfind
        have hpid0 := List.find?_some hfind
        have hpid : (loan.id == loanId) = true := hpid0
        obtain ⟨h1, h2, h3, h4⟩ := hInv
        by_cases hap : approve = true
        · rw [if_pos hap] at h
          split_ifs at h with hlt
          rw [Except.ok.injEq] at h
          subst h
          refine ⟨?_, ?_, ?_, ?_⟩
          · rw [map_id_congr]
            · exact h1
            · intro x hx
              by_cases hxi : (x.id == loanId) = true
              · rw [if_pos hxi]
              · rw [if_neg hxi]
          · intro l' hl'
            obtain ⟨x, hx, rfl⟩ := List.mem_map.mp hl'
            by_cases hxi : (x.id == loanId) = true
            · rw [if_pos hxi]
              exact h2 x hx
            · rw [if_neg hxi]
              exact h2 x hx
          · intro l' hl'
            obtain ⟨x, hx, rfl⟩ := List.mem_map.mp hl'
            by_cases hxi : (x.id == loanId) = true
            · rw [if_pos hxi]
              exact h3 x hx
            · rw [if_neg hxi]
              exact h3 x hx
          · push_neg at hlt
            rw [availableCapital_eq] at h4 hlt ⊢
            dsimp only
            rw [sum_map_update loanContrib _ loanId st.loans loan h1 hfind
              (by intro x hx; simp [hx])]
            simp only [hpid, if_true]
            have hgl : loanContrib { loan with
                status := LoanStatus.approved
                approvedAt := some now
                dueDate := some (addPeriod loan.paymentSchedule now) } = loan.amount := by
              simp [loanContrib]
            rw [hgl]
            have hcases : loanContrib loan = loan.amount ∨ loanContrib loan = 0 := by
              unfold loanContrib
              split_ifs <;> simp
            rcases hcases with hc | hc <;> rw [hc] <;> linarith
        · rw [if_neg hap] at h
          rw [Except.ok.injEq] at h
          subst h
          refine ⟨?_, ?_, ?_, ?_⟩
          · rw [map_id_congr]
            · exact h1
            · intro x hx
              by_cases hxi : (x.id == loanId) = true
              · rw [if_pos hxi]
              · rw [if_neg hxi]
          · intro l' hl'
            obtain ⟨x, hx, rfl⟩ := List.mem_map.mp hl'
            by_cases hxi : (x.id == loanId) = true
            · rw [if_pos hxi]
              exact h2 x hx
            · rw [if_neg hxi]
              exact h2 x hx
          · intro l' hl'
            obtain ⟨x, hx, rfl⟩ := List.mem_map.mp hl'
            by_cases hxi : (x.id == loanId) = true
            · rw [if_pos hxi]
              exact h3 x hx
            · rw [if_neg hxi]
              exact h3 x hx
          · rw [availableCapital_eq] at h4 ⊢
            dsimp only
            rw [sum_map_update loanContrib _ loanId st.loans loan h1 hfind
              (by intro x hx; simp [hx])]
            simp only [hpid, if_true]
            have hgl : loanContrib { loan with status := LoanStatus.rejected } = 0 := by
              simp [loanContrib]
            rw [hgl]
            have hcl : 0 ≤ loanContrib loan := by
              unfold loanContrib
              split_ifs with hls
              · exact h2 loan hmem
              · exact le_refl 0
            linarith
    · rw [if_neg hrole] at h
      injection h with h
      subst h
      exact hInv

theorem Inv_loans_update (st : LendingState) (loanId : Nat) (loan ul : Loan)
    (ps : List Payment) (hInv : Inv st)
    (hfind : st.loans.find? (fun l => l.id == loanId) = some loan)
    (hid : ul.id = loan.id) (hamt : ul.amount = loan.amount)
    (hstat : ul.status = loan.status)
    (hpi : ul.principalPaid + ul.interestPaid ≤ ul.totalDue) :
    Inv { st with
      loans := st.loans.map (fun l => if l.id == loanId then ul else l)
      payments := ps } := by
  obtain ⟨h1, h2, h3, h4⟩ := hInv
  have hpid0 := List.find?_some hfind
  have hpid : (loan.id == loanId) = true := hpid0
  have hlid : loan.id = loanId := by simpa using hpid
  have hmem := List.mem_of_find?_eq_some hfind
  refine ⟨?_, ?_, ?_, ?_⟩
  · rw [map_id_congr]
    · exact h1
    · intro x hx
      by_cases hxi : (x.id == loanId) = true
      · have hx2 : x.id = loanId := by simpa using hxi
        rw [if_pos hxi, hid, hlid, hx2]
      · rw [if_neg hxi]
  · intro l' hl'
    obtain ⟨x, hx, rfl⟩ := List.mem_map.mp hl'
    by_cases hxi : (x.id == loanId) = true
    · rw [if_pos hxi, hamt]
      exact h2 loan hmem
    · rw [if_neg hxi]
      exact h2 x hx
  · intro l' hl'
    obtain ⟨x, hx, rfl⟩ := List.mem_map.mp hl'
    by_cases hxi : (x.id == loanId) = true
    · rw [if_pos hxi]
      exact hpi
    · rw [if_neg hxi]
      exact h3 x hx
  · rw [availableCapital_eq] at h4 ⊢
    dsimp only
    rw [sum_map_update loanContrib _ loanId st.loans loan h1 hfind
      (by intro x hx; simp [hx])]
    simp only [hpid, if_true]
    have hcontrib : loanContrib ul = loanContrib loan := by
      unfold loanContrib
      rw [hstat, hamt]
    rw [hcontrib]
    ring_nf
    ring_nf at h4
    exact h4

theorem Inv_recordPayment (newId : Nat) (now : Int) (loanId : Nat) (amount : Rat)
    (method : Method) (st st' : LendingState)
    (h : recordPayment newId now loanId amount method st = Except.ok st') (hInv : Inv st) :
    Inv st' := by
  simp only [recordPayment] at h
  split at h
  · injection h with h
    subst h
    exact hInv
  case _ u hcu =>
    by_cases hr : u.role = Role.borrower
    · rw [if_pos hr] at h
      split at h
      · injection h with h
        subst h
        exact hInv
      case _ loan hfind =>
        by_cases hs : loan.status = LoanStatus.approved
        · rw [if_pos hs] at h
          by_cases hb : loan.totalDue - loan.principalPaid - loan.interestPaid < amount
          · rw [if_pos hb] at h
            simp at h
          · rw [if_neg hb] at h
            rw [Except.ok.injEq] at h
            subst h
            apply Inv_loans_update st loanId loan _ _ hInv hfind
            · split_ifs <;> rfl
            · split_ifs <;> rfl
            · split_ifs <;> rfl
            · split_ifs <;> (dsimp only; linarith)
        · rw [if_neg hs] at h
          injection h with h
          subst h
          exact hInv
    · rw [if_neg hr] at h
      injection h with h
      subst h
      exact hInv

theorem Inv_updateOverdueLoans (now : Int) (st : LendingState) (hInv : Inv st) :
    Inv (updateOverdueLoans now st) := by
  obtain ⟨h1, h2, h3, h4⟩ := hInv
  refine ⟨?_, ?_, ?_, ?_⟩
  · unfold updateOverdueLoans
    dsimp only
    rw [map_id_congr _ _ (fun x _ => sweepLoan_id now x)]
    exact h1
  · intro l' hl'
    simp only [updateOverdueLoans] at hl'
    obtain ⟨x, hx, rfl⟩ := List.mem_map.mp hl'
    rw [sweepLoan_amount]
    exact h2 x hx
  · intro l' hl'
    simp only [updateOverdueLoans] at hl'
    obtain ⟨x, hx, rfl⟩ := List.mem_map.mp hl'
    rw [sweepLoan_principalPaid, sweepLoan_interestPaid]
    exact le_trans (h3 x hx) (sweepLoan_totalDue_mono now x (h3 x hx))
  · rw [availableCapital_eq] at h4 ⊢
    unfold updateOverdueLoans
    dsimp only
    rw [sum_map_congr _ _ _ (fun x _ => sweepLoan_contrib now x)]
    exact h4


/-- One committed command of the running system.  The positivity guards
mirror the validation the dashboards perform before invoking the engine
callbacks: handleDeposit and handleWithdraw (LenderDashboard.tsx, lines
59-81) and handleLoanRequest and handlePayment (BorrowerDashboard,
concatenated in the same source file at lines 552-585) all reject amounts
that are NaN or not positive before calling into LendingApp.  Entity ids
are Date.now().toString() values in the source; they appear here as
arbitrary Nat arguments and need not be distinct, since nothing in the
source prevents two same-millisecond requests from sharing an id. -/
inductive Step : LendingState → LendingState → Prop where
  | register (newId : Nat) (now : Int) (name : String) (role : Role)
      (st st' : LendingState) :
      registerUser newId now name role st = Except.ok st' → Step st st'
  | deposit (newId : Nat) (now : Int) (amount : Rat) (st : LendingState) :
      0 < amount → Step st (depositCapital newId now amount st)
  | withdraw (newId : Nat) (now : Int) (amount : Rat) (st st' : LendingState) :
      0 < amount → withdrawCapital newId now amount st = Except.ok st' → Step st st'
  | request (newId : Nat) (now : Int) (amount : Rat) (sched : Schedule)
      (st st' : LendingState) :
      0 < amount → requestLoan newId now amount sched st = Except.ok st' → Step st st'
  | decideLoan (now : Int) (loanId : Nat) (approve : Bool) (st st' : LendingState) :
      approveLoan now loanId approve st = Except.ok st' → Step st st'
  | pay (newId : Nat) (now : Int) (loanId : Nat) (amount : Rat) (method : Method)
      (st st' : LendingState) :
      0 < amount → recordPayment newId now loanId amount method st = Except.ok st' →
      Step st st'
  | sweep (now : Int) (st : LendingState) : Step st (updateOverdueLoans now st)
  | reset (st : LendingState) : Step st (systemReset st)
  | switchTo (userId : Nat) (st : LendingState) : Step st (switchUser userId st)

/-- States reachable from the initial empty state by committed commands. -/
inductive Reachable : LendingState → Prop where
  | init : Reachable initialState
  | step {st st' : LendingState} : Reachable st → Step st st' → Reachable st'

/-- Restriction of Step in which every requested loan receives an id not
already present in the loan book: the behavior of the explicit unique-id
generator that spec section 9 calls for.  The source's
Date.now().toString() ids do not guarantee this (two requests in the same
millisecond collide), which is exactly what separates ReachableU from
Reachable. -/
inductive StepU : LendingState → LendingState → Prop where
  | register (newId : Nat) (now : Int) (name : String) (role : Role)
      (st st' : LendingState) :
      registerUser newId now name role st = Except.ok st' → StepU st st'
  | deposit (newId : Nat) (now : Int) (amount : Rat) (st : LendingState) :
      0 < amount → StepU st (depositCapital newId now amount st)
  | withdraw (newId : Nat) (now : Int) (amount : Rat) (st st' : LendingState) :
      0 < amount → withdrawCapital newId now amount st = Except.ok st' → StepU st st'
  | request (newId : Nat) (now : Int) (amount : Rat) (sched : Schedule)
      (st st' : LendingState) :
      0 < amount → (∀ l ∈ st.loans, l.id ≠ newId) →
      requestLoan newId now amount sched st = Except.ok st' → StepU st st'
  | decideLoan (now : Int) (loanId : Nat) (approve : Bool) (st st' : LendingState) :
      approveLoan now loanId approve st = Except.ok st' → StepU st st'
  | pay (newId : Nat) (now : Int) (loanId : Nat) (amount : Rat) (method : Method)
      (st st' : LendingState) :
      0 < amount → recordPayment newId now loanId amount method st = Except.ok st' →
      StepU st st'
  | sweep (now : Int) (st : LendingState) : StepU st (updateOverdueLoans now st)
  | reset (st : LendingState) : StepU st (systemReset st)
  | switchTo (userId : Nat) (st : LendingState) : StepU st (switchUser userId st)

/-- States reachable when loan ids are kept unique. -/
inductive ReachableU : LendingState → Prop where
  | init : ReachableU initialState
  | step {st st' : LendingState} : ReachableU st → StepU st st' → ReachableU st'

theorem Inv_stepU {st st' : LendingState} (h : StepU st st') (hInv : Inv st) : Inv st' := by
  cases h with
  | register newId now name role st st' h => exact Inv_registerUser newId now name role st st' h hInv
  | deposit newId now amount st hamt => exact Inv_depositCapital newId now amount st (le_of_lt hamt) hInv
  | withdraw newId now amount st st' hamt h => exact Inv_withdrawCapital newId now amount st st' h hInv
  | request newId now amount sched st st' hamt hfresh h =>
      exact Inv_requestLoan newId now amount sched st st' h hamt hfresh hInv
  | decideLoan now loanId approve st st' h => exact Inv_approveLoan now loanId approve st st' h hInv
  | pay newId now loanId amount method st st' hamt h =>
      exact Inv_recordPayment newId now loanId amount method st st' h hInv
  | sweep now st => exact Inv_updateOverdueLoans now st hInv
  | reset st => exact Inv_systemReset st hInv
  | switchTo userId st => exact Inv_switchUser userId st hInv

theorem Inv_reachableU {st : LendingState} (h : ReachableU st) : Inv st := by
  induction h with
  | init => exact Inv_initialState
  | step _ hstep ih => exact Inv_stepU hstep ih

def dep500 : Capital := { id := 5, lenderId := 1, amount := 500, addedAt := 0 }

def carolUser : User := { id := 3, name := "Carol", role := Role.borrower, joinedAt := 0 }

def dupDepState : LendingState :=
  { users := [aliceUser], capital := [dep500], loans := [], payments := [],
    currentUser := some aliceUser }

def dupBobState : LendingState :=
  { users := [aliceUser, bobUser], capital := [dep500], loans := [], payments := [],
    currentUser := some bobUser }

/-- Bob's 400 loan, created under id 7. -/
def dupLoanBob : Loan := {
  id := 7
  borrowerId := 2
  borrowerName := "Bob"
  amount := 400
  interestRate := scheduleRate Schedule.weekly
  paymentSchedule := Schedule.weekly
  status := LoanStatus.pending
  requestedAt := 0
  approvedAt := none
  dueDate := none
  totalDue := 400 + 400 * scheduleRate Schedule.weekly
  principalPaid := 0
  interestPaid := 0
  isOverdue := false
  overdueInterestApplied := false }

/-- Carol's 400 loan, created in the same millisecond, so under the same
Date.now id 7. -/
def dupLoanCarol : Loan :=
  { dupLoanBob with borrowerId := 3, borrowerName := "Carol" }

def dupReq1State : LendingState :=
  { users := [aliceUser, bobUser], capital := [dep500], loans := [dupLoanBob], payments := [],
    currentUser := some bobUser }

def dupCarolState : LendingState :=
  { users := [aliceUser, bobUser, carolUser], capital := [dep500], loans := [dupLoanBob],
    payments := [], currentUser := some carolUser }

def dupReq2State : LendingState :=
  { users := [aliceUser, bobUser, carolUser], capital := [dep500],
    loans := [dupLoanBob, dupLoanCarol], payments := [], currentUser := some carolUser }

def dupSwitchedState : LendingState :=
  { dupReq2State with currentUser := some aliceUser }

def dupLoanBobA : Loan :=
  { dupLoanBob with
    status := LoanStatus.approved
    approvedAt := some 0
    dueDate := some (addPeriod Schedule.weekly 0) }

def dupLoanCarolA : Loan :=
  { dupLoanCarol with
    status := LoanStatus.approved
    approvedAt := some 0
    dueDate := some (addPeriod Schedule.weekly 0) }

def dupApprovedState : LendingState :=
  { users := [aliceUser, bobUser, carolUser], capital := [dep500],
    loans := [dupLoanBobA, dupLoanCarolA], payments := [], currentUser := some aliceUser }

theorem dup_approve_eq :
    approveLoan 0 7 true dupSwitchedState = Except.ok dupApprovedState := by
  norm_num +decide [approveLoan, dupSwitchedState, dupReq2State, dupApprovedState,
    dupLoanBob, dupLoanCarol, dupLoanBobA, dupLoanCarolA, aliceUser, bobUser, carolUser,
    dep500, availableCapital, totalCapital, totalLoaned, scheduleRate,
    WEEKLY_INTEREST_RATE, addPeriod]

/-- C8 counterexample: availableCapital goes negative in a reachable
state.  Loan ids are Date.now().toString() values, so two requests in the
same millisecond share an id (a collision spec section 9 explicitly warns
about).  With capital 500, Bob and then Carol each request 400 under the
shared id 7; approving id 7 capital-checks only the first matching loan
(400 over 500 passes) but flips every loan carrying the id to approved,
leaving availableCapital = 500 - 800 = -300. -/
theorem availableCapital_negative_reachable :
    Reachable dupApprovedState ∧ availableCapital dupApprovedState < 0 := by
  constructor
  · have r1 : Reachable aliceState :=
      Reachable.step Reachable.init
        (Step.register 1 0 "Alice" Role.lender initialState aliceState rfl)
    have r2 : Reachable dupDepState :=
      Reachable.step r1 (Step.deposit 5 0 500 aliceState (by norm_num))
    have r3 : Reachable dupBobState :=
      Reachable.step r2 (Step.register 2 0 "Bob" Role.borrower dupDepState dupBobState rfl)
    have r4 : Reachable dupReq1State :=
      Reachable.step r3
        (Step.request 7 0 400 Schedule.weekly dupBobState dupReq1State (by norm_num) rfl)
    have r5 : Reachable dupCarolState :=
      Reachable.step r4
        (Step.register 3 0 "Carol" Role.borrower dupReq1State dupCarolState rfl)
    have r6 : Reachable dupReq2State :=
      Reachable.step r5
        (Step.request 7 0 400 Schedule.weekly dupCarolState dupReq2State (by norm_num) rfl)
    have r7 : Reachable dupSwitchedState :=
      Reachable.step r6 (Step.switchTo 1 dupReq2State)
    exact Reachable.step r7
      (Step.decideLoan 0 7 true dupSwitchedState dupApprovedState dup_approve_eq)
  · norm_num +decide [availableCapital, totalCapital, totalLoaned, dupApprovedState,
      dupLoanBobA, dupLoanCarolA, dupLoanBob, dupLoanCarol, dep500]

/-- C8 amended: provided loans always receive distinct ids — the unique-id
generator spec section 9 calls for, which the source's Date.now ids do not
guarantee — availableCapital is nonnegative in every reachable state, and
every command (deposit, withdraw, loan decision, payment, sweep, reset,
registration, user switch) preserves it.  With a duplicated id, a single
approval approves every loan bearing that id after one capital check and
the bound fails (see the counterexample). -/
theorem availableCapital_nonneg (st : LendingState) (h : ReachableU st) :
    0 ≤ availableCapital st :=
  (Inv_reachableU h).2.2.2

/-- Scenario A loan: Bob's 300 monthly request, id 8. -/
def wLoan : Loan := {
  id := 8
  borrowerId := 2
  borrowerName := "Bob"
  amount := 300
  interestRate := scheduleRate Schedule.monthly
  paymentSchedule := Schedule.monthly
  status := LoanStatus.pending
  requestedAt := 0
  approvedAt := none
  dueDate := none
  totalDue := 300 + 300 * scheduleRate Schedule.monthly
  principalPaid := 0
  interestPaid := 0
  isOverdue := false
  overdueInterestApplied := false }

def wReqState : LendingState :=
  { users := [aliceUser, bobUser], capital := [dep500], loans := [wLoan], payments := [],
    currentUser := some bobUser }

def wSwitchedState : LendingState :=
  { wReqState with currentUser := some aliceUser }

def wLoanA : Loan :=
  { wLoan with
    status := LoanStatus.approved
    approvedAt := some 0
    dueDate := some (addPeriod Schedule.monthly 0) }

def wApprovedState : LendingState :=
  { users := [aliceUser, bobUser], capital := [dep500], loans := [wLoanA], payments := [],
    currentUser := some aliceUser }

theorem w_approve_eq :
    approveLoan 0 8 true wSwitchedState = Except.ok wApprovedState := by
  norm_num +decide [approveLoan, wSwitchedState, wReqState, wApprovedState, wLoan, wLoanA,
    aliceUser, bobUser, dep500, availableCapital, totalCapital, totalLoaned, scheduleRate,
    MONTHLY_INTEREST_RATE, addPeriod]

theorem availableCapital_nonneg_witness : 0 ≤ availableCapital wApprovedState := by
  have r1 : ReachableU aliceState :=
    ReachableU.step ReachableU.init
      (StepU.register 1 0 "Alice" Role.lender initialState aliceState rfl)
  have r2 : ReachableU dupDepState :=
    ReachableU.step r1 (StepU.deposit 5 0 500 aliceState (by norm_num))
  have r3 : ReachableU dupBobState :=
    ReachableU.step r2 (StepU.register 2 0 "Bob" Role.borrower dupDepState dupBobState rfl)
  have r4 : ReachableU wReqState :=
    ReachableU.step r3
      (StepU.request 8 0 300 Schedule.monthly dupBobState wReqState (by norm_num)
        (by simp [dupBobState]) rfl)
  have r5 : ReachableU wSwitchedState :=
    ReachableU.step r4 (StepU.switchTo 1 wReqState)
  have r6 : ReachableU wApprovedState :=
    ReachableU.step r5 (StepU.decideLoan 0 8 true wSwitchedState wApprovedState w_approve_eq)
  exact availableCapital_nonneg wApprovedState r6

/-- The part of the invariant that survives id collisions: loan amounts
are nonnegative and every loan satisfies
principalPaid + interestPaid ≤ totalDue. -/
def Inv9 (st : LendingState) : Prop :=
  (∀ l ∈ st.loans, 0 ≤ l.amount) ∧
  (∀ l ∈ st.loans, l.principalPaid + l.interestPaid ≤ l.totalDue)

theorem Inv9_initialState : Inv9 initialState :=
  ⟨by simp [initialState], by simp [initialState]⟩

theorem Inv9_registerUser (newId : Nat) (now : Int) (name : String) (role : Role)
    (st st' : LendingState) (h : registerUser newId now name role st = Except.ok st')
    (hInv : Inv9 st) : Inv9 st' := by
  simp only [registerUser] at h
  split_ifs at h
  rw [Except.ok.injEq] at h
  subst h
  exact hInv

theorem Inv9_switchUser (userId : Nat) (st : LendingState) (hInv : Inv9 st) :
    Inv9 (switchUser userId st) := by
  unfold switchUser
  split
  · exact hInv
  · exact hInv

theorem Inv9_systemReset (st : LendingState) (hInv : Inv9 st) : Inv9 (systemReset st) := by
  unfold systemReset
  split
  · exact hInv
  · split_ifs
    · exact ⟨by simp, by simp⟩
    · exact hInv

theorem Inv9_depositCapital (newId : Nat) (now : Int) (amount : Rat) (st : LendingState)
    (hInv : Inv9 st) : Inv9 (depositCapital newId now amount st) := by
  unfold depositCapital
  split
  · exact hInv
  · split_ifs
    · exact hInv
    · exact hInv

theorem Inv9_withdrawCapital (newId : Nat) (now : Int) (amount : Rat) (st st' : LendingState)
    (h : withdrawCapital newId now amount st = Except.ok st') (hInv : Inv9 st) : Inv9 st' := by
  simp only [withdrawCapital] at h
  split at h
  · injection h with h
    subst h
    exact hInv
  case _ u hcu =>
    split_ifs at h with hrole hlt
    · rw [Except.ok.injEq] at h
      subst h
      exact hInv
    · rw [Except.ok.injEq] at h
      subst h
      exact hInv

theorem Inv9_requestLoan (newId : Nat) (now : Int) (amount : Rat) (sched : Schedule)
    (st st' : LendingState) (h : requestLoan newId now amount sched st = Except.ok st')
    (hamt : 0 < amount) (hInv : Inv9 st) : Inv9 st' := by
  simp only [requestLoan] at h
  split at h
  · injection h with h
    subst h
    exact hInv
  case _ u hcu =>
    split_ifs at h with hrole hmax hdup
    · rw [Except.ok.injEq] at h
      subst h
      obtain ⟨h2, h3⟩ := hInv
      refine ⟨?_, ?_⟩
      · intro l hl
        rcases List.mem_append.mp hl with hl | hl
        · exact h2 l hl
        · simp only [List.mem_singleton] at hl
          subst hl
          exact le_of_lt hamt
      · intro l hl
        rcases List.mem_append.mp hl with hl | hl
        · exact h3 l hl
        · simp only [List.mem_singleton] at hl
          subst hl
          dsimp only
          have hmul : 0 ≤ amount * scheduleRate sched :=
            mul_nonneg (le_of_lt hamt) (scheduleRate_nonneg sched)
          linarith
    · rw [Except.ok.injEq] at h
      subst h
      exact hInv

theorem Inv9_approveLoan (now : Int) (loanId : Nat) (approve : Bool) (st st' : LendingState)
    (h : approveLoan now loanId approve st = Except.ok st') (hInv : Inv9 st) : Inv9 st' := by
  simp only [approveLoan] at h
  split at h
  · injection h with h
    subst h
    exact hInv
  case _ u hcu =>
    by_cases hrole : u.role = Role.lender
    · rw [if_pos hrole] at h
      split at h
      · injection h with h
        subst h
        exact hInv
      case _ loan hfind =>
        obtain ⟨h2, h3⟩ := hInv
        by_cases hap : approve = true
        · rw [if_pos hap] at h
          split_ifs at h with hlt
          rw [Except.ok.injEq] at h
          subst h
          refine ⟨?_, ?_⟩
          · intro l' hl'
            obtain ⟨x, hx, rfl⟩ := List.mem_map.mp hl'
            by_cases hxi : (x.id == loanId) = true
            · rw [if_pos hxi]
              exact h2 x hx
            · rw [if_neg hxi]
              exact h2 x hx
          · intro l' hl'
            obtain ⟨x, hx, rfl⟩ := List.mem_map.mp hl'
            by_cases hxi : (x.id == loanId) = true
            · rw [if_pos hxi]
              exact h3 x hx
            · rw [if_neg hxi]
              exact h3 x hx
        · rw [if_neg hap] at h
          rw [Except.ok.injEq] at h
          subst h
          refine ⟨?_, ?_⟩
          · intro l' hl'
            obtain ⟨x, hx, rfl⟩ := List.mem_map.mp hl'
            by_cases hxi : (x.id == loanId) = true
            · rw [if_pos hxi]
              exact h2 x hx
            · rw [if_neg hxi]
              exact h2 x hx
          · intro l' hl'
            obtain ⟨x, hx, rfl⟩ := List.mem_map.mp hl'
            by_cases hxi : (x.id == loanId) = true
            · rw [if_pos hxi]
              exact h3 x hx
            · rw [if_neg hxi]
              exact h3 x hx
    · rw [if_neg hrole] at h
      injection h with h
      subst h
      exact hInv

theorem Inv9_loans_update (st : LendingState) (loanId : Nat) (loan ul : Loan)
    (ps : List Payment) (hInv : Inv9 st)
    (hfind : st.loans.find? (fun l => l.id == loanId) = some loan)
    (hamt : ul.amount = loan.amount)
    (hpi : ul.principalPaid + ul.interestPaid ≤ ul.totalDue) :
    Inv9 { st with
      loans := st.loans.map (fun l => if l.id == loanId then ul else l)
      payments := ps } := by
  obtain ⟨h2, h3⟩ := hInv
  have hmem := List.mem_of_find?_eq_some hfind
  refine ⟨?_, ?_⟩
  · intro l' hl'
    obtain ⟨x, hx, rfl⟩ := List.mem_map.mp hl'
    by_cases hxi : (x.id == loanId) = true
    · rw [if_pos hxi, hamt]
      exact h2 loan hmem
    · rw [if_neg hxi]
      exact h2 x hx
  · intro l' hl'
    obtain ⟨x, hx, rfl⟩ := List.mem_map.mp hl'
    by_cases hxi : (x.id == loanId) = true
    · rw [if_pos hxi]
      exact hpi
    · rw [if_neg hxi]
      exact h3 x hx

theorem Inv9_recordPayment (newId : Nat) (now : Int) (loanId : Nat) (amount : Rat)
    (method : Method) (st st' : LendingState)
    (h : recordPayment newId now loanId amount method st = Except.ok st') (hInv : Inv9 st) :
    Inv9 st' := by
  simp only [recordPayment] at h
  split at h
  · injection h with h
    subst h
    exact hInv
  case _ u hcu =>
    by_cases hr : u.role = Role.borrower
    · rw [if_pos hr] at h
      split at h
      · injection h with h
        subst h
        exact hInv
      case _ loan hfind =>
        by_cases hs : loan.status = LoanStatus.approved
        · rw [if_pos hs] at h
          by_cases hb : loan.totalDue - loan.principalPaid - loan.interestPaid < amount
          · rw [if_pos hb] at h
            simp at h
          · rw [if_neg hb] at h
            rw [Except.ok.injEq] at h
            subst h
            apply Inv9_loans_update st loanId loan _ _ hInv hfind
            · split_ifs <;> rfl
            · split_ifs <;> (dsimp only; linarith)
        · rw [if_neg hs] at h
          injection h with h
          subst h
          exact hInv
    · rw [if_neg hr] at h
      injection h with h
      subst h
      exact hInv

theorem Inv9_updateOverdueLoans (now : Int) (st : LendingState) (hInv : Inv9 st) :
    Inv9 (updateOverdueLoans now st) := by
  obtain ⟨h2, h3⟩ := hInv
  refine ⟨?_, ?_⟩
  · intro l' hl'
    simp only [updateOverdueLoans] at hl'
    obtain ⟨x, hx, rfl⟩ := List.mem_map.mp hl'
    rw [sweepLoan_amount]
    exact h2 x hx
  · intro l' hl'
    simp only [updateOverdueLoans] at hl'
    obtain ⟨x, hx, rfl⟩ := List.mem_map.mp hl'
    rw [sweepLoan_principalPaid, sweepLoan_interestPaid]
    exact le_trans (h3 x hx) (sweepLoan_totalDue_mono now x (h3 x hx))

theorem Inv9_step {st st' : LendingState} (h : Step st st') (hInv : Inv9 st) : Inv9 st' := by
  cases h with
  | register newId now name role st st' h => exact Inv9_registerUser newId now name role st st' h hInv
  | deposit newId now amount st hamt => exact Inv9_depositCapital newId now amount st hInv
  | withdraw newId now amount st st' hamt h => exact Inv9_withdrawCapital newId now amount st st' h hInv
  | request newId now amount sched st st' hamt h =>
      exact Inv9_requestLoan newId now amount sched st st' h hamt hInv
  | decideLoan now loanId approve st st' h => exact Inv9_approveLoan now loanId approve st st' h hInv
  | pay newId now loanId amount method st st' hamt h =>
      exact Inv9_recordPayment newId now loanId amount method st st' h hInv
  | sweep now st => exact Inv9_updateOverdueLoans now st hInv
  | reset st => exact Inv9_systemReset st hInv
  | switchTo userId st => exact Inv9_switchUser userId st hInv

theorem Inv9_reachable {st : LendingState} (h : Reachable st) : Inv9 st := by
  induction h with
  | init => exact Inv9_initialState
  | step _ hstep ih => exact Inv9_step hstep ih

/-- C9: in every reachable state, every loan satisfies
principalPaid + interestPaid ≤ totalDue.  recordPayment's ExceedsBalance
check bounds the payment by the remaining balance, the overdue sweep
never decreases totalDue, and every other command leaves the three fields
alone, so induction over the program's reachability relation closes the
invariant — id collisions included, since the loan that overwrites every
id-sharer in recordPayment satisfies the bound itself. -/
theorem paid_le_totalDue (st : LendingState) (h : Reachable st) :
    ∀ l ∈ st.loans, l.principalPaid + l.interestPaid ≤ l.totalDue :=
  (Inv9_reachable h).2

theorem paid_le_totalDue_witness :
    wLoanA.principalPaid + wLoanA.interestPaid ≤ wLoanA.totalDue := by
  have r1 : Reachable aliceState :=
    Reachable.step Reachable.init
      (Step.register 1 0 "Alice" Role.lender initialState aliceState rfl)
  have r2 : Reachable dupDepState :=
    Reachable.step r1 (Step.deposit 5 0 500 aliceState (by norm_num))
  have r3 : Reachable dupBobState :=
    Reachable.step r2 (Step.register 2 0 "Bob" Role.borrower dupDepState dupBobState rfl)
  have r4 : Reachable wReqState :=
    Reachable.step r3
      (Step.request 8 0 300 Schedule.monthly dupBobState wReqState (by norm_num) rfl)
  have r5 : Reachable wSwitchedState :=
    Reachable.step r4 (Step.switchTo 1 wReqState)
  have r6 : Reachable wApprovedState :=
    Reachable.step r5 (Step.decideLoan 0 8 true wSwitchedState wApprovedState w_approve_eq)
  exact paid_le_totalDue wApprovedState r6 wLoanA (by simp [wApprovedState])

end Lending
